import Mathlib

/-!
Shallow embedding of `app.py` from the line-voice-reminder-bot repository.

The file models the two pieces of program logic the claims are about:

* `handle_audio_message` (app.py lines 58-117): takes the language-model
  completion text, strips it, splits it on newlines, and either persists a
  reminder + schedules a job + replies with a confirmation (exactly two
  lines whose first line parses under `strptime` format `%H:%M %Y-%m-%d`),
  replies with a fixed apology (line count different from 2), or lets the
  `strptime` `ValueError` propagate (two lines, unparsable first line).
  The external transcription / LLM calls are inputs to the model: the
  function is parameterised by the completion content string.  The
  temporary audio file is tracked by a boolean recording whether the
  `os.unlink` on line 117 is reached.

* `send_reminder` (app.py lines 119-130): pushes a text message built with
  `strftime` and then marks the first matching unsent reminder as sent.

Strings are modelled as `List Char`; the database table as a
`List Reminder` in insertion order (SQLite rowid order, which is what
`query(...).first()` returns on); an exception propagating out of the
handler as the `raised` flag of the result.
-/

/-- Strings of the program are modelled as lists of characters. -/
abbrev Str := List Char

/-- The characters removed by Python `str.strip()` (ASCII whitespace; the
genuine `strip` also removes further Unicode whitespace, which never occurs
in the claims). -/
def isPySpace (c : Char) : Bool :=
  c = ' ' || c = '\t' || c = '\n' || c = '\r' || c = '\x0b' || c = '\x0c'

/-- Python `str.strip()`: drop leading and trailing whitespace. -/
def pyStrip (s : Str) : Str :=
  (((s.dropWhile isPySpace).reverse).dropWhile isPySpace).reverse

/-- Python `str.split('\n')`: split on every newline; the result is never
empty, and empty pieces are kept (`"a\n".split('\n') == ["a", ""]`). -/
def pySplit : Str → List Str
  | [] => [[]]
  | c :: rest =>
    if c = '\n' then [] :: pySplit rest
    else
      match pySplit rest with
      | [] => [[c]]
      | h :: t => (c :: h) :: t

/-- The naive `datetime.datetime` values produced by
`datetime.strptime(s, "%H:%M %Y-%m-%d")` (seconds and microseconds are
always zero for this format and are omitted). -/
structure PyDateTime where
  year : Nat
  month : Nat
  day : Nat
  hour : Nat
  minute : Nat
deriving DecidableEq

/-- Numeric value of a decimal digit character. -/
def dval (c : Char) : Nat := c.toNat - 48

/-- CPython `_strptime` directive `%H`, regex `2[0-3]|[0-1]\d|\d`,
with regex backtracking given by trying the alternatives in order
against the continuation. -/
def matchH (s : Str) (k : Nat → Str → Option α) : Option α :=
  (match s with
   | '2' :: c :: rest =>
     if '0' ≤ c && c ≤ '3' then k (20 + dval c) rest else none
   | _ => none) <|>
  (match s with
   | a :: b :: rest =>
     if ('0' ≤ a && a ≤ '1') && b.isDigit then k (dval a * 10 + dval b) rest else none
   | _ => none) <|>
  (match s with
   | a :: rest => if a.isDigit then k (dval a) rest else none
   | _ => none)

/-- CPython `_strptime` directive `%M`, regex `[0-5]\d|\d`. -/
def matchM (s : Str) (k : Nat → Str → Option α) : Option α :=
  (match s with
   | a :: b :: rest =>
     if ('0' ≤ a && a ≤ '5') && b.isDigit then k (dval a * 10 + dval b) rest else none
   | _ => none) <|>
  (match s with
   | a :: rest => if a.isDigit then k (dval a) rest else none
   | _ => none)

/-- A literal whitespace in a `strptime` format string matches `\s+`.
The following directive is `%Y` (digits), so the greedy match never has
to give characters back. -/
def matchWS (s : Str) (k : Str → Option α) : Option α :=
  match s with
  | c :: rest => if isPySpace c then k (rest.dropWhile isPySpace) else none
  | [] => none

/-- CPython `_strptime` directive `%Y`, regex `\d\d\d\d`: exactly four
digits. -/
def matchY (s : Str) (k : Nat → Str → Option α) : Option α :=
  match s with
  | a :: b :: c :: d :: rest =>
    if a.isDigit && b.isDigit && c.isDigit && d.isDigit then
      k (dval a * 1000 + dval b * 100 + dval c * 10 + dval d) rest
    else none
  | _ => none

/-- CPython `_strptime` directive `%m`, regex `1[0-2]|0[1-9]|[1-9]`. -/
def matchMon (s : Str) (k : Nat → Str → Option α) : Option α :=
  (match s with
   | '1' :: b :: rest =>
     if '0' ≤ b && b ≤ '2' then k (10 + dval b) rest else none
   | _ => none) <|>
  (match s with
   | '0' :: b :: rest =>
     if '1' ≤ b && b ≤ '9' then k (dval b) rest else none
   | _ => none) <|>
  (match s with
   | a :: rest => if '1' ≤ a && a ≤ '9' then k (dval a) rest else none
   | _ => none)

/-- CPython `_strptime` directive `%d`, regex `3[01]|[12]\d|0[1-9]|[1-9]`. -/
def matchD (s : Str) (k : Nat → Str → Option α) : Option α :=
  (match s with
   | '3' :: b :: rest =>
     if b = '0' || b = '1' then k (30 + dval b) rest else none
   | _ => none) <|>
  (match s with
   | a :: b :: rest =>
     if ('1' ≤ a && a ≤ '2') && b.isDigit then k (dval a * 10 + dval b) rest else none
   | _ => none) <|>
  (match s with
   | '0' :: b :: rest =>
     if '1' ≤ b && b ≤ '9' then k (dval b) rest else none
   | _ => none) <|>
  (match s with
   | a :: rest => if '1' ≤ a && a ≤ '9' then k (dval a) rest else none
   | _ => none)

/-- Gregorian leap-year rule used by `datetime`. -/
def isLeap (y : Nat) : Bool := y % 4 = 0 && (y % 100 ≠ 0 || y % 400 = 0)

/-- Days in a month, as validated by the `datetime` constructor. -/
def daysInMonth (y m : Nat) : Nat :=
  if m = 2 then (if isLeap y then 29 else 28)
  else if m = 4 || m = 6 || m = 9 || m = 11 then 30
  else 31

/-- The `datetime(year, month, day, hour, minute)` constructor validation
reachable after the regex match: the regex already bounds hour, minute and
month, so what remains is `MINYEAR <= year` and the day fitting the month
(`ValueError` is modelled as `none`). -/
def mkDatetime (y mo d H M : Nat) : Option PyDateTime :=
  if 1 ≤ y && d ≤ daysInMonth y mo then some ⟨y, mo, d, H, M⟩ else none

/-- `datetime.strptime(s, "%H:%M %Y-%m-%d")` (app.py line 94): `none`
models the `ValueError` raised on a non-matching string, including the
"unconverted data remains" check that the whole string is consumed. -/
def strptime_HM_YMD (s : Str) : Option PyDateTime :=
  matchH s fun H s1 =>
    match s1 with
    | ':' :: s2 =>
      matchM s2 fun M s3 =>
        matchWS s3 fun s4 =>
          matchY s4 fun Y s5 =>
            match s5 with
            | '-' :: s6 =>
              matchMon s6 fun mo s7 =>
                match s7 with
                | '-' :: s8 =>
                  matchD s8 fun d s9 =>
                    match s9 with
                    | [] => mkDatetime Y mo d H M
                    | _ => none
                | _ => none
            | _ => none
    | _ => none

/-- A number printed in decimal, left-padded with zeros to width `w`. -/
def padNum (w : Nat) (n : Nat) : Str :=
  let ds := Nat.toDigits 10 n
  List.replicate (w - ds.length) '0' ++ ds

/-- `event_time.strftime('%H:%M %Y-%m-%d')` (app.py line 122). -/
def strftime_HM_YMD (t : PyDateTime) : Str :=
  padNum 2 t.hour ++ ':' :: padNum 2 t.minute ++ ' ' :: padNum 4 t.year
    ++ '-' :: padNum 2 t.month ++ '-' :: padNum 2 t.day

/-- A row of the `reminders` table (app.py lines 32-39).  `is_sent`
defaults to false on insert. -/
structure Reminder where
  id : Nat
  user_id : Str
  event_time : PyDateTime
  event_content : Str
  is_sent : Bool
deriving DecidableEq

/-- A one-shot job registered with `scheduler.add_job(send_reminder,
'date', run_date=event_time, args=[user_id, event_time, event_content])`
(app.py line 103). -/
structure Job where
  run_date : PyDateTime
  user_id : Str
  event_time : PyDateTime
  event_content : Str
deriving DecidableEq

/-- Observable outcome of one `handle_audio_message` invocation:
the table after the call, the jobs the call scheduled, the reply sent on
`event.reply_token` (if any), whether an exception propagated out of the
handler, and whether the `os.unlink(temp_audio_path)` on line 117 was
reached. -/
structure HandlerResult where
  store : List Reminder
  jobs : List Job
  reply : Option Str
  raised : Bool
  tempFileRemoved : Bool
deriving DecidableEq

/-- The fixed apology reply of app.py line 113 (`\x27` is the ASCII
apostrophe). -/
def apologyText : Str :=
  ("Sorry, I couldn\x27t understand the event details. Please try again.").toList

/-- `handle_audio_message` (app.py lines 58-117) from the point where the
completion content is in hand: `modelOutput` is
`completion.choices[0].message.content`, `store` the `reminders` table
before the call, `nextId` the next autoincrement id. -/
def handle_audio_message (user_id : Str) (modelOutput : Str)
    (store : List Reminder) (nextId : Nat) : HandlerResult :=
  match pySplit (pyStrip modelOutput) with
  | [event_time_str, event_content] =>
    match strptime_HM_YMD event_time_str with
    | some event_time =>
      { store := store ++ [⟨nextId, user_id, event_time, event_content, false⟩]
        jobs := [⟨event_time, user_id, event_time, event_content⟩]
        reply := some (("Reminder set for ").toList ++ event_time_str
                        ++ (": ").toList ++ event_content)
        raised := false
        tempFileRemoved := true }
    | none =>
      { store := store
        jobs := []
        reply := none
        raised := true
        tempFileRemoved := false }
  | _ =>
    { store := store
      jobs := []
      reply := some apologyText
      raised := false
      tempFileRemoved := true }

/-- The filter of app.py line 127: `filter_by(user_id=..., event_time=...,
event_content=..., is_sent=False)`. -/
def matchesUnsent (u : Str) (t : PyDateTime) (c : Str) (r : Reminder) : Bool :=
  r.user_id == u && r.event_time == t && r.event_content == c && r.is_sent == false

/-- `session.query(Reminder).filter_by(...).first()`: the first matching
row in table order, or none. -/
def find_unsent (u : Str) (t : PyDateTime) (c : Str) (store : List Reminder) :
    Option Reminder :=
  store.find? (matchesUnsent u t c)

/-- Effect on the table of `reminder = ...first(); if reminder:
reminder.is_sent = True; session.commit()` (app.py lines 127-130): the
first matching unsent row is flipped to sent; all other rows are
untouched. -/
def markFirstUnsent (u : Str) (t : PyDateTime) (c : Str) :
    List Reminder → List Reminder
  | [] => []
  | r :: rest =>
    if matchesUnsent u t c r then { r with is_sent := true } :: rest
    else r :: markFirstUnsent u t c rest

/-- `send_reminder` (app.py lines 119-130): returns the text pushed via
`line_bot_api.push_message` (built unconditionally, before the database
query) and the table after the call. -/
def send_reminder (user_id : Str) (event_time : PyDateTime)
    (event_content : Str) (store : List Reminder) : Str × List Reminder :=
  (("Reminder: ").toList ++ strftime_HM_YMD event_time
      ++ (" - ").toList ++ event_content,
   markFirstUnsent user_id event_time event_content store)

/-- Whole-system state for the lifecycle claims: the table plus the next
autoincrement id. -/
structure SysState where
  store : List Reminder
  nextId : Nat

/-- The operations of the program that touch the table: a webhook handler
invocation (creation) and a fired scheduler job (delivery). -/
inductive Op where
  | create (user_id : Str) (modelOutput : Str)
  | deliver (user_id : Str) (event_time : PyDateTime) (event_content : Str)

/-- One operation applied to the system state. -/
def step (s : SysState) : Op → SysState
  | Op.create u m => ⟨(handle_audio_message u m s.store s.nextId).store, s.nextId + 1⟩
  | Op.deliver u t c => ⟨(send_reminder u t c s.store).2, s.nextId⟩

/-- A sequence of operations applied in order. -/
def runOps (s : SysState) (ops : List Op) : SysState := ops.foldl step s

/-! ### Concrete values used to instantiate the theorems

These follow the worked scenario of the specification: model output
`"15:00 2024-06-05\nMeeting with Bob"` for user `U12345`. -/

/-- A concrete user id. -/
def wUser : Str := ("U12345").toList

/-- A concrete well-formed two-line model output. -/
def wModelOutput : Str := ("15:00 2024-06-05\nMeeting with Bob").toList

/-- Its first line. -/
def wTime : Str := ("15:00 2024-06-05").toList

/-- Its second line. -/
def wContent : Str := ("Meeting with Bob").toList

/-- The datetime parsed from the first line. -/
def wDT : PyDateTime := ⟨2024, 6, 5, 15, 0⟩

/-- The reminder row the scenario persists. -/
def wReminder : Reminder := ⟨0, wUser, wDT, wContent, false⟩

/-- The same row after delivery. -/
def wSent : Reminder := ⟨1, wUser, wDT, wContent, true⟩

/-- A two-line model output whose first line does not match the
`strptime` format. -/
def wBadOutput : Str := ("soon\nCall Bob").toList

/-- A three-line model output. -/
def wThreeLines : Str := ("line one\nline two\nline three").toList

/-! ### Facts about `pySplit` and `pyStrip` -/

theorem pySplit_ne_nil (s : Str) : pySplit s ≠ [] := by
  induction s with
  | nil => simp [pySplit]
  | cons c rest ih =>
    simp only [pySplit]
    split
    · simp
    · split
      · simp
      · simp

theorem pySplit_eq_single {s x : Str} (h : pySplit s = [x]) : s = x := by
  induction s generalizing x with
  | nil =>
    simp only [pySplit] at h
    injection h
  | cons c rest ih =>
    simp only [pySplit] at h
    by_cases hc : c = '\n'
    · rw [if_pos hc] at h
      injection h with h1 h2
      exact absurd h2 (pySplit_ne_nil rest)
    · rw [if_neg hc] at h
      rcases hps : pySplit rest with - | ⟨hd, tl⟩
      · exact absurd hps (pySplit_ne_nil rest)
      · rw [hps] at h
        injection h with h1 h2
        subst h2
        rw [ih hps]
        exact h1

theorem pySplit_eq_pair {s a b : Str} (h : pySplit s = [a, b]) :
    s = a ++ '\n' :: b := by
  induction s generalizing a b with
  | nil => simp only [pySplit] at h; injection h with h1 h2; exact absurd h2 (by simp)
  | cons c rest ih =>
    simp only [pySplit] at h
    by_cases hc : c = '\n'
    · rw [if_pos hc] at h
      injection h with h1 h2
      subst hc
      rw [← h1]
      simp [pySplit_eq_single h2]
    · rw [if_neg hc] at h
      rcases hps : pySplit rest with - | ⟨hd, tl⟩
      · exact absurd hps (pySplit_ne_nil rest)
      · rw [hps] at h
        injection h with h1 h2
        subst h2
        rw [← h1, ih hps]
        rfl

theorem dropWhile_head?_not {α : Type} {p : α → Bool} :
    ∀ {l : List α} {a : α}, (List.dropWhile p l).head? = some a → p a = false := by
  intro l
  induction l with
  | nil => intro a h; simp [List.dropWhile] at h
  | cons c rest ih =>
    intro a h
    rw [List.dropWhile_cons] at h
    by_cases hc : p c = true
    · rw [if_pos hc] at h
      exact ih h
    · rw [if_neg hc] at h
      simp only [List.head?_cons, Option.some.injEq] at h
      subst h
      exact Bool.eq_false_iff.mpr hc

theorem pyStrip_head?_not_space {s : Str} {a : Char}
    (h : (pyStrip s).head? = some a) : isPySpace a = false := by
  have hqr : pyStrip s =
      (List.dropWhile isPySpace (List.dropWhile isPySpace s).reverse).reverse := rfl
  rw [hqr] at h
  have hqne : List.dropWhile isPySpace (List.dropWhile isPySpace s).reverse ≠ [] := by
    intro he
    rw [he] at h
    simp at h
  obtain ⟨w, hw⟩ :=
    @List.dropWhile_suffix Char ((List.dropWhile isPySpace s).reverse) isPySpace
  have hpeq : List.dropWhile isPySpace s =
      (List.dropWhile isPySpace (List.dropWhile isPySpace s).reverse).reverse
        ++ w.reverse := by
    have h2 := congrArg List.reverse hw
    simp only [List.reverse_append, List.reverse_reverse] at h2
    exact h2.symm
  have hhead : (List.dropWhile isPySpace s).head? = some a := by
    rw [hpeq, List.head?_append_of_ne_nil _ (by simpa using hqne)]
    exact h
  exact dropWhile_head?_not hhead

theorem pyStrip_getLast?_not_space {s : Str} {a : Char}
    (h : (pyStrip s).getLast? = some a) : isPySpace a = false := by
  have hqr : pyStrip s =
      (List.dropWhile isPySpace (List.dropWhile isPySpace s).reverse).reverse := rfl
  rw [hqr, List.getLast?_reverse] at h
  exact dropWhile_head?_not h

/-- After `strip()`, a split that yields exactly two pieces yields two
nonempty pieces: the stripped string neither starts nor ends with a
newline. -/
theorem strip_split_pair_ne_nil {m t c : Str}
    (h : pySplit (pyStrip m) = [t, c]) : t ≠ [] ∧ c ≠ [] := by
  have hjoin : pyStrip m = t ++ '\n' :: c := pySplit_eq_pair h
  constructor
  · intro ht
    rw [ht] at hjoin
    have hh : (pyStrip m).head? = some '\n' := by rw [hjoin]; rfl
    exact absurd (pyStrip_head?_not_space hh) (by decide)
  · intro hc
    rw [hc] at hjoin
    have hh : (pyStrip m).getLast? = some '\n' := by
      rw [hjoin]
      exact List.getLast?_concat t
    exact absurd (pyStrip_getLast?_not_space hh) (by decide)

/-! ### Branch equations for the webhook handler -/

theorem handle_success (u m : Str) (store : List Reminder) (nid : Nat)
    {t c : Str} {dt : PyDateTime}
    (hsplit : pySplit (pyStrip m) = [t, c])
    (hparse : strptime_HM_YMD t = some dt) :
    handle_audio_message u m store nid =
      { store := store ++ [⟨nid, u, dt, c, false⟩]
        jobs := [⟨dt, u, dt, c⟩]
        reply := some (("Reminder set for ").toList ++ t ++ (": ").toList ++ c)
        raised := false
        tempFileRemoved := true } := by
  unfold handle_audio_message
  rw [hsplit]
  simp only [hparse]

theorem handle_raised (u m : Str) (store : List Reminder) (nid : Nat)
    {t c : Str}
    (hsplit : pySplit (pyStrip m) = [t, c])
    (hparse : strptime_HM_YMD t = none) :
    handle_audio_message u m store nid =
      { store := store, jobs := [], reply := none, raised := true
        tempFileRemoved := false } := by
  unfold handle_audio_message
  rw [hsplit]
  simp only [hparse]

theorem handle_apology (u m : Str) (store : List Reminder) (nid : Nat)
    (h : (pySplit (pyStrip m)).length ≠ 2) :
    handle_audio_message u m store nid =
      { store := store, jobs := [], reply := some apologyText, raised := false
        tempFileRemoved := true } := by
  rcases hs : pySplit (pyStrip m) with - | ⟨a, - | ⟨b, - | ⟨e, l3⟩⟩⟩
  · unfold handle_audio_message; rw [hs]
  · unfold handle_audio_message; rw [hs]
  · exact absurd (by rw [hs]; rfl) h
  · unfold handle_audio_message; rw [hs]

/-! ### Facts about the delivery step -/

theorem matchesUnsent_is_sent_false {u : Str} {t : PyDateTime} {c : Str}
    {r : Reminder} (h : matchesUnsent u t c r = true) : r.is_sent = false := by
  simp only [matchesUnsent, Bool.and_eq_true, beq_iff_eq] at h
  exact h.2

theorem matchesUnsent_flip_false (u : Str) (t : PyDateTime) (c : Str)
    (r : Reminder) : matchesUnsent u t c { r with is_sent := true } = false := by
  simp [matchesUnsent]

theorem markFirstUnsent_of_no_match {u : Str} {t : PyDateTime} {c : Str} :
    ∀ {store : List Reminder}, (∀ r ∈ store, matchesUnsent u t c r = false) →
      markFirstUnsent u t c store = store := by
  intro store
  induction store with
  | nil => intro _; rfl
  | cons r rest ih =>
    intro h
    have hr : matchesUnsent u t c r = false := h r (by simp)
    simp only [markFirstUnsent]
    rw [if_neg (by simp [hr]), ih (fun x hx => h x (by simp [hx]))]

theorem markFirstUnsent_first_match {u : Str} {t : PyDateTime} {c : Str} :
    ∀ {store : List Reminder}, 0 < store.countP (matchesUnsent u t c) →
      ∃ i r, store[i]? = some r ∧ matchesUnsent u t c r = true ∧
        (∀ j rj, j < i → store[j]? = some rj → matchesUnsent u t c rj = false) ∧
        markFirstUnsent u t c store = store.set i { r with is_sent := true } ∧
        (markFirstUnsent u t c store).countP (matchesUnsent u t c)
          = store.countP (matchesUnsent u t c) - 1 := by
  intro store
  induction store with
  | nil => intro h; simp at h
  | cons r rest ih =>
    intro h
    by_cases hr : matchesUnsent u t c r = true
    · refine ⟨0, r, by simp, hr, ?_, ?_, ?_⟩
      · intro j rj hj _
        exact absurd hj (Nat.not_lt_zero j)
      · simp only [markFirstUnsent, if_pos hr, List.set_cons_zero]
      · simp only [markFirstUnsent, if_pos hr]
        rw [List.countP_cons, List.countP_cons]
        simp [matchesUnsent_flip_false u t c r, hr]
    · have hr' : matchesUnsent u t c r = false := by simpa using hr
      have hcount : 0 < rest.countP (matchesUnsent u t c) := by
        rw [List.countP_cons] at h
        simpa [hr'] using h
      obtain ⟨i, r0, hget, hm, hfirst, heq, hcnt⟩ := ih hcount
      refine ⟨i + 1, r0, by simpa using hget, hm, ?_, ?_, ?_⟩
      · intro j rj hj hgj
        cases j with
        | zero =>
          simp only [List.getElem?_cons_zero, Option.some.injEq] at hgj
          rw [← hgj]
          exact hr'
        | succ j2 =>
          exact hfirst j2 rj (by omega) (by simpa using hgj)
      · simp only [markFirstUnsent]
        rw [if_neg hr, List.set_cons_succ, heq]
      · simp only [markFirstUnsent]
        rw [if_neg hr, List.countP_cons, List.countP_cons, hcnt, hr']
        simp only [if_false, Bool.false_eq_true, Nat.add_zero]

theorem mem_markFirstUnsent_of_sent {u : Str} {t : PyDateTime} {c : Str}
    {r : Reminder} :
    ∀ {store : List Reminder}, r ∈ store → r.is_sent = true →
      r ∈ markFirstUnsent u t c store := by
  intro store
  induction store with
  | nil => intro h _; simp at h
  | cons a rest ih =>
    intro hmem hsent
    by_cases ha : matchesUnsent u t c a = true
    · simp only [markFirstUnsent, if_pos ha]
      rcases List.mem_cons.mp hmem with rfl | hmem2
      · exact absurd hsent (by simp [matchesUnsent_is_sent_false ha])
      · exact List.mem_cons_of_mem _ hmem2
    · simp only [markFirstUnsent, if_neg ha]
      rcases List.mem_cons.mp hmem with rfl | hmem2
      · exact List.mem_cons_self _ _
      · exact List.mem_cons_of_mem _ (ih hmem2 hsent)

theorem mem_markFirstUnsent_new {u : Str} {t : PyDateTime} {c : Str}
    {r : Reminder} :
    ∀ {store : List Reminder}, r ∈ markFirstUnsent u t c store → r ∉ store →
      r.is_sent = true ∧ ({ r with is_sent := false } : Reminder) ∈ store := by
  intro store
  induction store with
  | nil => intro h _; simp [markFirstUnsent] at h
  | cons a rest ih =>
    intro hmem hnot
    by_cases ha : matchesUnsent u t c a = true
    · rw [markFirstUnsent, if_pos ha] at hmem
      rcases List.mem_cons.mp hmem with rfl | hmem2
      · refine ⟨rfl, ?_⟩
        have hf : a.is_sent = false := matchesUnsent_is_sent_false ha
        have hid : ({ { a with is_sent := true } with is_sent := false } :
            Reminder) = a := by
          cases a
          simp_all
        rw [hid]
        exact List.mem_cons_self _ _
      · exact absurd (List.mem_cons_of_mem a hmem2) hnot
    · rw [markFirstUnsent, if_neg ha] at hmem
      rcases List.mem_cons.mp hmem with rfl | hmem2
      · exact absurd (List.mem_cons_self _ _) hnot
      · have hnot2 : r ∉ rest := fun hh => hnot (List.mem_cons_of_mem _ hh)
        obtain ⟨h1, h2⟩ := ih hmem2 hnot2
        exact ⟨h1, List.mem_cons_of_mem _ h2⟩

/-! ### Facts about the whole-system step -/

theorem handle_store_extends (u m : Str) (store : List Reminder) (nid : Nat) :
    ∃ tail, (handle_audio_message u m store nid).store = store ++ tail ∧
      ∀ r ∈ tail, r.is_sent = false := by
  by_cases h2 : (pySplit (pyStrip m)).length = 2
  · obtain ⟨t, c, hs⟩ := List.length_eq_two.mp h2
    cases hp : strptime_HM_YMD t with
    | some dt =>
      exact ⟨[⟨nid, u, dt, c, false⟩],
        by rw [handle_success u m store nid hs hp], by simp⟩
    | none =>
      exact ⟨[], by rw [handle_raised u m store nid hs hp]; simp, by simp⟩
  · exact ⟨[], by rw [handle_apology u m store nid h2]; simp, by simp⟩

theorem step_preserves_sent {s : SysState} {op : Op} {r : Reminder}
    (hmem : r ∈ s.store) (hsent : r.is_sent = true) : r ∈ (step s op).store := by
  cases op with
  | create u m =>
    obtain ⟨tail, heq, -⟩ := handle_store_extends u m s.store s.nextId
    simp only [step, heq]
    exact List.mem_append_left _ hmem
  | deliver u t c =>
    simp only [step, send_reminder]
    exact mem_markFirstUnsent_of_sent hmem hsent

theorem step_new_record {s : SysState} {op : Op} {r : Reminder}
    (hmem : r ∈ (step s op).store) (hnot : r ∉ s.store) :
    r.is_sent = false ∨
      (r.is_sent = true ∧ ({ r with is_sent := false } : Reminder) ∈ s.store) := by
  cases op with
  | create u m =>
    obtain ⟨tail, heq, hall⟩ := handle_store_extends u m s.store s.nextId
    simp only [step, heq] at hmem
    rcases List.mem_append.mp hmem with h | h
    · exact absurd h hnot
    · exact Or.inl (hall r h)
  | deliver u t c =>
    simp only [step, send_reminder] at hmem
    exact Or.inr (mem_markFirstUnsent_new hmem hnot)

theorem runOps_preserves_sent {r : Reminder} :
    ∀ (ops : List Op) (s : SysState), r ∈ s.store → r.is_sent = true →
      r ∈ (runOps s ops).store := by
  intro ops
  induction ops with
  | nil => intro s h _; exact h
  | cons op ops ih =>
    intro s hmem hsent
    exact ih (step s op) (step_preserves_sent hmem hsent) hsent

/-! ### The claims -/

/-- C1: for every model output that strips and splits into exactly two
lines whose first line parses under `strptime("%H:%M %Y-%m-%d")`, the
handler persists one new reminder with `is_sent = false`, schedules one
job whose run date is exactly the parsed timestamp, and replies with a
confirmation echoing the literal parsed time string and the content
line. -/
theorem C1_success_persists_schedules_replies (u m : Str)
    (store : List Reminder) (nid : Nat) (t c : Str) (dt : PyDateTime)
    (hsplit : pySplit (pyStrip m) = [t, c])
    (hparse : strptime_HM_YMD t = some dt) :
    handle_audio_message u m store nid =
      { store := store ++ [⟨nid, u, dt, c, false⟩]
        jobs := [⟨dt, u, dt, c⟩]
        reply := some (("Reminder set for ").toList ++ t ++ (": ").toList ++ c)
        raised := false
        tempFileRemoved := true } :=
  handle_success u m store nid hsplit hparse

theorem C1_witness :
    handle_audio_message wUser wModelOutput [] 0 =
      { store := [⟨0, wUser, wDT, wContent, false⟩]
        jobs := [⟨wDT, wUser, wDT, wContent⟩]
        reply := some (("Reminder set for ").toList ++ wTime
                        ++ (": ").toList ++ wContent)
        raised := false
        tempFileRemoved := true } :=
  C1_success_persists_schedules_replies wUser wModelOutput [] 0 wTime wContent
    wDT (by decide) (by decide)

/-- C2: for every model output whose stripped split does not have exactly
two lines, the handler leaves the table unchanged, schedules nothing, and
replies with the fixed apology text; no exception is raised (a normal
branch). -/
theorem C2_nontwo_lines_apology (u m : Str) (store : List Reminder)
    (nid : Nat) (h : (pySplit (pyStrip m)).length ≠ 2) :
    handle_audio_message u m store nid =
      { store := store, jobs := [], reply := some apologyText
        raised := false, tempFileRemoved := true } :=
  handle_apology u m store nid h

theorem C2_witness :
    handle_audio_message wUser wThreeLines [] 0 =
      { store := [], jobs := [], reply := some apologyText
        raised := false, tempFileRemoved := true } :=
  C2_nontwo_lines_apology wUser wThreeLines [] 0 (by decide)

/-- C3: round-trip: for every accepted two-line model output, the
persisted reminder carries exactly the sender id, the datetime parsed
from line 1 and the verbatim line 2. -/
theorem C3_roundtrip (u m : Str) (store : List Reminder) (nid : Nat)
    (t c : Str) (dt : PyDateTime)
    (hsplit : pySplit (pyStrip m) = [t, c])
    (hparse : strptime_HM_YMD t = some dt) :
    ∃ r : Reminder, (handle_audio_message u m store nid).store = store ++ [r] ∧
      r.user_id = u ∧ r.event_time = dt ∧ r.event_content = c := by
  refine ⟨⟨nid, u, dt, c, false⟩, ?_, rfl, rfl, rfl⟩
  rw [handle_success u m store nid hsplit hparse]

theorem C3_witness :
    ∃ r : Reminder,
      (handle_audio_message wUser wModelOutput [] 0).store = [] ++ [r] ∧
      r.user_id = wUser ∧ r.event_time = wDT ∧ r.event_content = wContent :=
  C3_roundtrip wUser wModelOutput [] 0 wTime wContent wDT (by decide) (by decide)

/-- C4: idempotence of delivery: on a table containing exactly one
matching unsent record, the delivery step flips that record false→true;
after it the table has no matching unsent record and a second delivery
step leaves the table unchanged. -/
theorem C4_deliver_idempotent (u : Str) (t : PyDateTime) (c : Str)
    (store : List Reminder)
    (h : store.countP (matchesUnsent u t c) = 1) :
    (∃ i r, store[i]? = some r ∧ matchesUnsent u t c r = true ∧
       r.is_sent = false ∧
       (send_reminder u t c store).2 = store.set i { r with is_sent := true }) ∧
    ((send_reminder u t c store).2).countP (matchesUnsent u t c) = 0 ∧
    (send_reminder u t c ((send_reminder u t c store).2)).2
      = (send_reminder u t c store).2 := by
  have hpos : 0 < store.countP (matchesUnsent u t c) := by omega
  obtain ⟨i, r, hget, hm, hfirst, heq, hcnt⟩ :=
    @markFirstUnsent_first_match u t c store hpos
  have hs1 : (send_reminder u t c store).2 = markFirstUnsent u t c store := rfl
  have hz : ((send_reminder u t c store).2).countP (matchesUnsent u t c) = 0 := by
    rw [hs1, hcnt, h]
  refine ⟨⟨i, r, hget, hm, matchesUnsent_is_sent_false hm, hs1.trans heq⟩, hz, ?_⟩
  have hall := List.countP_eq_zero.mp hz
  show markFirstUnsent u t c ((send_reminder u t c store).2)
    = (send_reminder u t c store).2
  exact markFirstUnsent_of_no_match fun x hx => by simpa using hall x hx

theorem C4_witness :
    (∃ i r, ([wReminder])[i]? = some r ∧
       matchesUnsent wUser wDT wContent r = true ∧ r.is_sent = false ∧
       (send_reminder wUser wDT wContent [wReminder]).2
         = [wReminder].set i { r with is_sent := true }) ∧
    ((send_reminder wUser wDT wContent [wReminder]).2).countP
      (matchesUnsent wUser wDT wContent) = 0 ∧
    (send_reminder wUser wDT wContent
      ((send_reminder wUser wDT wContent [wReminder]).2)).2
      = (send_reminder wUser wDT wContent [wReminder]).2 :=
  C4_deliver_idempotent wUser wDT wContent [wReminder] (by decide)

/-- C5: lifecycle invariant of `is_sent`: a sent record survives every
operation unchanged (so it is never un-sent and can flip at most once),
a record new in the table after an operation either was created unsent or
is the false→true flip of a record already present, and sent records
survive arbitrary operation sequences. -/
theorem C5_is_sent_lifecycle (s : SysState) (op : Op) (r : Reminder)
    (ops : List Op) :
    (r ∈ s.store → r.is_sent = true → r ∈ (step s op).store) ∧
    (r ∈ (step s op).store → r ∉ s.store →
      r.is_sent = false ∨
        (r.is_sent = true ∧ ({ r with is_sent := false } : Reminder) ∈ s.store)) ∧
    (r ∈ s.store → r.is_sent = true → r ∈ (runOps s ops).store) :=
  ⟨fun h1 h2 => step_preserves_sent h1 h2,
   fun h1 h2 => step_new_record h1 h2,
   fun h1 h2 => runOps_preserves_sent ops s h1 h2⟩

theorem C5_witness :
    wSent ∈ (step ⟨[wSent], 2⟩ (Op.deliver wUser wDT wContent)).store :=
  (C5_is_sent_lifecycle ⟨[wSent], 2⟩ (Op.deliver wUser wDT wContent) wSent
    []).1 (by simp) rfl

/-- C6: a reminder is created only when the stripped model output splits
into exactly two fields, both nonempty (the stripped string can neither
start nor end with a newline); in particular no persisted reminder has an
empty content field, and its time comes from a successful parse of a
nonempty time string. -/
theorem C6_creation_two_nonempty_fields (u m : Str) (store : List Reminder)
    (nid : Nat) (r : Reminder)
    (hmem : r ∈ (handle_audio_message u m store nid).store)
    (hnew : r ∉ store) :
    ∃ t c, pySplit (pyStrip m) = [t, c] ∧ t ≠ [] ∧ c ≠ [] ∧
      r.event_content = c ∧ r.event_content ≠ [] ∧
      ∃ dt, strptime_HM_YMD t = some dt ∧ r.event_time = dt := by
  by_cases h2 : (pySplit (pyStrip m)).length = 2
  · obtain ⟨t, c, hs⟩ := List.length_eq_two.mp h2
    cases hp : strptime_HM_YMD t with
    | some dt =>
      rw [handle_success u m store nid hs hp] at hmem
      rcases List.mem_append.mp hmem with h | h
      · exact absurd h hnew
      · have hr : r = ⟨nid, u, dt, c, false⟩ := by simpa using h
        obtain ⟨ht, hc⟩ := strip_split_pair_ne_nil hs
        subst hr
        exact ⟨t, c, hs, ht, hc, rfl, hc, dt, hp, rfl⟩
    | none =>
      rw [handle_raised u m store nid hs hp] at hmem
      exact absurd hmem hnew
  · rw [handle_apology u m store nid h2] at hmem
    exact absurd hmem hnew

theorem C6_witness :
    ∃ t c, pySplit (pyStrip wModelOutput) = [t, c] ∧ t ≠ [] ∧ c ≠ [] ∧
      wReminder.event_content = c ∧ wReminder.event_content ≠ [] ∧
      ∃ dt, strptime_HM_YMD t = some dt ∧ wReminder.event_time = dt :=
  C6_creation_two_nonempty_fields wUser wModelOutput [] 0 wReminder
    (by decide) (by decide)

/-- C7: when a scheduled job fires, the delivery step pushes the text
`"Reminder: " ++ strftime(event_time) ++ " - " ++ event_content` and
transitions the first matching unsent record (and no earlier record) to
`is_sent = true`. -/
theorem C7_deliver_push_then_mark (u : Str) (t : PyDateTime) (c : Str)
    (store : List Reminder)
    (h : 0 < store.countP (matchesUnsent u t c)) :
    (send_reminder u t c store).1 =
      ("Reminder: ").toList ++ strftime_HM_YMD t ++ (" - ").toList ++ c ∧
    ∃ i r, store[i]? = some r ∧ matchesUnsent u t c r = true ∧
      (∀ j rj, j < i → store[j]? = some rj → matchesUnsent u t c rj = false) ∧
      (send_reminder u t c store).2 = store.set i { r with is_sent := true } := by
  obtain ⟨i, r, hget, hm, hfirst, heq, -⟩ :=
    @markFirstUnsent_first_match u t c store h
  exact ⟨rfl, i, r, hget, hm, hfirst, heq⟩

theorem C7_witness :
    (send_reminder wUser wDT wContent [wReminder]).1 =
      ("Reminder: ").toList ++ strftime_HM_YMD wDT ++ (" - ").toList ++ wContent ∧
    ∃ i r, ([wReminder])[i]? = some r ∧
      matchesUnsent wUser wDT wContent r = true ∧
      (∀ j rj, j < i → ([wReminder])[j]? = some rj →
        matchesUnsent wUser wDT wContent rj = false) ∧
      (send_reminder wUser wDT wContent [wReminder]).2
        = [wReminder].set i { r with is_sent := true } :=
  C7_deliver_push_then_mark wUser wDT wContent [wReminder] (by decide)

/-- C8: for every model output whose stripped split has exactly two lines
but whose first line does not parse under the `strptime` format, the
handler raises (the failure is not routed to the apology branch: no reply
is sent), the table is unchanged and no job is scheduled. -/
theorem C8_unparsable_time_raises (u m : Str) (store : List Reminder)
    (nid : Nat) (t c : Str)
    (hsplit : pySplit (pyStrip m) = [t, c])
    (hparse : strptime_HM_YMD t = none) :
    handle_audio_message u m store nid =
      { store := store, jobs := [], reply := none, raised := true
        tempFileRemoved := false } :=
  handle_raised u m store nid hsplit hparse

theorem C8_witness :
    handle_audio_message wUser wBadOutput [] 0 =
      { store := [], jobs := [], reply := none, raised := true
        tempFileRemoved := false } :=
  C8_unparsable_time_raises wUser wBadOutput [] 0 (("soon").toList)
    (("Call Bob").toList) (by decide) (by decide)

/-- C9 counterexample: at the concrete two-line output `"soon\nCall Bob"`
the time parse raises out of the handler and the `os.unlink` on line 117
is never reached, so the temporary file is NOT removed on this outcome —
refuting removal "regardless of outcome". -/
theorem C9_counterexample :
    (handle_audio_message wUser wBadOutput [] 0).raised = true ∧
    (handle_audio_message wUser wBadOutput [] 0).tempFileRemoved = false := by
  decide

/-- C9 (amended): the temporary file is removed exactly on the
non-raising outcomes (success branch and apology branch); when a step
after the file is written raises — as time parsing does on a two-line
output with an unparsable first line — the removal on line 117 is not
reached. -/
theorem C9_amended_removal (u m : Str) (store : List Reminder) (nid : Nat) :
    ((handle_audio_message u m store nid).raised = false →
      (handle_audio_message u m store nid).tempFileRemoved = true) ∧
    ((handle_audio_message u m store nid).raised = true →
      (handle_audio_message u m store nid).tempFileRemoved = false) := by
  by_cases h2 : (pySplit (pyStrip m)).length = 2
  · obtain ⟨t, c, hs⟩ := List.length_eq_two.mp h2
    cases hp : strptime_HM_YMD t with
    | some dt =>
      rw [handle_success u m store nid hs hp]
      exact ⟨fun _ => rfl, fun h => by simp at h⟩
    | none =>
      rw [handle_raised u m store nid hs hp]
      exact ⟨fun h => by simp at h, fun _ => rfl⟩
  · rw [handle_apology u m store nid h2]
    exact ⟨fun _ => rfl, fun h => by simp at h⟩

theorem C9_amended_witness :
    (handle_audio_message wUser wModelOutput [] 0).tempFileRemoved = true ∧
    (handle_audio_message wUser wBadOutput [] 0).tempFileRemoved = false :=
  ⟨(C9_amended_removal wUser wModelOutput [] 0).1 (by decide),
   (C9_amended_removal wUser wBadOutput [] 0).2 (by decide)⟩

/-- C10: the push text is produced unconditionally by every delivery-step
invocation — before and independently of the database query — and when no
matching unsent record exists the table is left unchanged. -/
theorem C10_push_unconditional (u : Str) (t : PyDateTime) (c : Str)
    (store : List Reminder) :
    (send_reminder u t c store).1 =
      ("Reminder: ").toList ++ strftime_HM_YMD t ++ (" - ").toList ++ c ∧
    (find_unsent u t c store = none → (send_reminder u t c store).2 = store) := by
  refine ⟨rfl, fun hf => ?_⟩
  have hall := List.find?_eq_none.mp hf
  show markFirstUnsent u t c store = store
  exact markFirstUnsent_of_no_match fun x hx => by simpa using hall x hx

theorem C10_witness :
    (send_reminder wUser wDT wContent []).1 =
      ("Reminder: ").toList ++ strftime_HM_YMD wDT ++ (" - ").toList ++ wContent ∧
    (send_reminder wUser wDT wContent []).2 = ([] : List Reminder) :=
  ⟨(C10_push_unconditional wUser wDT wContent []).1,
   (C10_push_unconditional wUser wDT wContent []).2 rfl⟩
